import Mathlib

/-!
# reddit-scrap: a verification development of `main.go`

The download pipeline of `main.go` is embedded as pure Lean functions.

* Go strings are modelled by Lean strings.  The `strings` package functions the
  program calls (`Contains`, `Replace`, `Split`) search byte-wise; on valid UTF-8
  text a byte-wise match of a valid UTF-8 pattern is the same as a character-wise
  match, so they are modelled on the character list of the string.
* A Go `error` is `Option String`: `none` is the `nil` error, `some msg` an error
  whose `Error()` text is `msg`.
* The network and the HTML library are an explicit environment (`Env`).
* The package-level variables (`dlinks`, `exist`, `errChan`) and the file system
  are an explicit state (`World`) threaded through `worker` and `putFile`.
* A run-time panic is the `Except.error` outcome of a function.

Log output is not modelled.
-/

namespace RedditScrap

/-! ## The `strings` package -/

/-- Go `strings.Index` on character lists: position of the first occurrence of
`substr` in `s`, `none` standing for Go's `-1`. -/
def indexChars (substr : List Char) : List Char → Option Nat
  | [] => if substr.isPrefixOf [] then some 0 else none
  | c :: cs =>
    if substr.isPrefixOf (c :: cs) then some 0
    else (indexChars substr cs).map (· + 1)

/-- Go `strings.Index(s, substr)`. -/
def stringsIndex (s substr : String) : Option Nat :=
  indexChars substr.data s.data

/-- Go `strings.Contains(s, substr)`, which is `Index(s, substr) >= 0`. -/
def stringsContains (s substr : String) : Bool :=
  (stringsIndex s substr).isSome

/-- Go `strings.Replace` on character lists, for a replacement count `n ≥ 0`:
the first `n` non-overlapping occurrences of `old` are replaced by `new`.
(For an empty `old` this agrees with Go for `n ≤ 1`, the only count the program uses.) -/
def replaceChars (old new : List Char) : Nat → List Char → List Char
  | 0, s => s
  | n + 1, s =>
    match indexChars old s with
    | none => s
    | some j => s.take j ++ new ++ replaceChars old new n (s.drop (j + old.length))

/-- Go `strings.Replace(s, old, new, n)` for `n ≥ 0`. -/
def stringsReplace (s old new : String) (n : Nat) : String :=
  ⟨replaceChars old.data new.data n s.data⟩

/-- The loop of Go `strings.Split` (`genSplit`) for a non-empty separator:
cut at the first occurrence of `sep`, continue behind it. `fuel` bounds the number
of cuts. -/
def splitChars (sep : List Char) : Nat → List Char → List (List Char)
  | 0, s => [s]
  | fuel + 1, s =>
    match indexChars sep s with
    | none => [s]
    | some m => s.take m :: splitChars sep fuel (s.drop (m + sep.length))

/-- Go `strings.Split(s, sep)` for a non-empty `sep`. Every cut removes at least
one character, so `s.length` cuts are all there can be. -/
def stringsSplit (s sep : String) : List String :=
  (splitChars sep.data s.data.length s.data).map String.mk

/-! ## `getExtention` -/

/-- `getExtention` of `main.go`: `splits[len(splits)-1]` of `strings.Split(url, "/")`.
`none` is the index-out-of-range panic of an empty `splits`. -/
def getExtention (url : String) : Option String :=
  let splits := stringsSplit url "/"
  splits[splits.length - 1]?

/-! ## The environment: network and HTML library -/

/-- A Go `error` value: `none` is `nil`. -/
abbrev GoError := Option String

/-- The attribute map of an HTML element (`soup.Root.Attrs()`). -/
abbrev Attrs := List (String × String)

/-- An HTTP response as `putFile` uses it: the status code, the values of the
`Content-Type` header (`resp.Header["Content-Type"]`), and the body stream: the
bytes it delivers and the error, if any, with which reading it ends. -/
structure Response where
  StatusCode : Int
  contentType : List String
  body : String
  bodyErr : GoError

/-- What the program obtains from outside.
* `soupGet url`: `soup.Get(url)`, the text of the page or the error of the fetch;
* `findOgVideo page`: `soup.HTMLParse(page).Find("meta", "property", "og:video")`,
  `none` when the returned root carries an error (no such element), otherwise the
  attributes of the element found;
* `clientGet url`: `httpClient().Get(url)`. -/
structure Env where
  soupGet : String → Except String String
  findOgVideo : String → Option Attrs
  clientGet : String → Except String Response

/-! ## The URL resolver -/

/-- `gfyCatMP4Url` of `main.go`. In the two `return "", err` behind a successful
fetch, `err` is the `nil` error of that fetch. -/
def gfyCatMP4Url (env : Env) (urlInput : String) : String × GoError :=
  match env.soupGet urlInput with
  | .error e => ("", some e)
  | .ok resp =>
    match env.findOgVideo resp with
    | none => ("", none)
    | some attrs =>
      match attrs.lookup "content" with
      | none => ("", none)
      | some urlOut => (urlOut, none)

/-- `urlGenerator` of `main.go`. `urlOut` and `err` start as the zero values
`""` and `nil`; the `gifv` branch rewrites `urlOut`, as the source does. -/
def urlGenerator (env : Env) (urlInput : String) : String × GoError :=
  let urlOut : String := ""
  let err : GoError := none
  if stringsContains urlInput "i.redd.it" || stringsContains urlInput "gfycat.com"
      || stringsContains urlInput "imgur" then
    if stringsContains urlInput "gfycat" then
      let (urlOut, err) := gfyCatMP4Url env urlInput
      let urlOut := stringsReplace urlOut "thumbs" "giant" 1
      let urlOut := stringsReplace urlOut "-mobile" "" 1
      (urlOut, err)
    else if stringsContains urlInput "gifv" then
      let urlOut := stringsReplace urlOut "gifv" "mp4" 1
      (urlOut, err)
    else
      (urlInput, err)
  else
    ("", err)

/-! ## The file system -/

/-- What the program can observe at one path.
* `file data`: `os.Stat` succeeds, the file holds `data`;
* `missing creatable`: `os.Stat` fails with a not-exist error; `os.Create`
  succeeds exactly when `creatable` (the directory is there and writable);
* `fault`: `os.Stat` fails with another error (permission denied, ...). -/
inductive Entry where
  | file (data : String)
  | missing (creatable : Bool)
  | fault
  deriving DecidableEq

/-- The file system: what is at each path. -/
abbrev FileSystem := String → Entry

/-- Overwrite the entry at path `p`. -/
def FileSystem.set (fs : FileSystem) (p : String) (e : Entry) : FileSystem :=
  fun q => if q = p then e else fs q

/-- `ensureFile` of `main.go`: `true` when `os.Stat` succeeds, `false` on a
not-exist error and `false` on every other error. -/
def ensureFile (fs : FileSystem) (filePath : String) : Bool :=
  match fs filePath with
  | .file _ => true
  | .missing _ => false
  | .fault => false

/-- `createImage` of `main.go`: `os.Create(fileName)`, which truncates an existing
file and creates a missing one; on an error (only logged) the returned file is
`nil`, here `false`. -/
def createImage (fs : FileSystem) (fileName : String) : Bool × FileSystem :=
  match fs fileName with
  | .file _ => (true, fs.set fileName (.file ""))
  | .missing true => (true, fs.set fileName (.file ""))
  | .missing false => (false, fs)
  | .fault => (false, fs)

/-- `os.Remove(filePath)`, its error ignored as in the source. -/
def osRemove (fs : FileSystem) (filePath : String) : FileSystem :=
  match fs filePath with
  | .file _ => fs.set filePath (.missing true)
  | _ => fs

/-! ## Program state -/

/-- `errObj` of `main.go`. -/
structure errObj where
  err : GoError
  url : String
  file : String := ""

/-- `Job` of `main.go`. -/
structure Job where
  Index : Int
  Url : String
  FilePath : String
  FolderPath : String

/-- The package-level variables and the outside world.
* `dlinks`, `exist`: the two `uint64` counters;
* `errChan`: the records sent on `errChan`, oldest first;
* `fs`: the file system;
* `bodyReads`: the URLs whose response body has been read from, oldest first. -/
structure World where
  dlinks : Nat
  exist : Nat
  errChan : List errObj
  fs : FileSystem
  bodyReads : List String

/-- A run-time panic. -/
inductive Panic where
  | nilDereference
  | indexOutOfRange
  deriving DecidableEq

/-- `atomic.AddUint64(&x, 1)`. -/
def atomicAddUint64 (x delta : Nat) : Nat := (x + delta) % 2 ^ 64

/-- `errChan <- e`. -/
def World.send (w : World) (e : errObj) : World :=
  { w with errChan := w.errChan ++ [e] }

/-! ## The downloader -/

/-- `io.Copy(file, resp.Body)` followed by the error handling of `putFile`.
A `nil` file makes the copy fail before anything is read; otherwise the body is
read, its bytes are written to the file, and the copy fails when the stream does.
On failure one record is sent and the file is removed. -/
def copyBody (url filePath : String) (resp : Response) (file : Bool) (w : World) : World :=
  if file then
    let w1 : World :=
      { w with fs := w.fs.set filePath (.file resp.body), bodyReads := w.bodyReads ++ [url] }
    match resp.bodyErr with
    | some e => { w1.send { err := some e, url := url } with fs := osRemove w1.fs filePath }
    | none => w1
  else
    { w.send { err := some "invalid argument", url := url } with fs := osRemove w.fs filePath }

/-- `putFile` of `main.go`. -/
def putFile (env : Env) (fileName url : String) (w : World) : Except Panic World :=
  match env.clientGet url with
  | .error e => .ok (w.send { err := some e, url := url })
  | .ok resp =>
    if resp.StatusCode > 299 then
      .ok (w.send
        { err := some ("url " ++ url ++ " returned status code " ++ toString resp.StatusCode),
          url := url })
    else
      match resp.contentType with
      | [] => .error .indexOutOfRange
      | ct :: _ =>
        match getExtention ct with
        | none => .error .indexOutOfRange
        | some ext =>
          let filePath := fileName ++ "." ++ ext
          if ensureFile w.fs filePath then
            .ok { w with exist := atomicAddUint64 w.exist 1 }
          else
            let (file, fs1) := createImage w.fs filePath
            .ok (copyBody url filePath resp file { w with fs := fs1 })

/-! ## The worker -/

/-- One iteration of the `for job := range jobs` loop of `worker`. The calls of
`ensureDir` and `putFile` are commented out in the source, so the iteration ends
with the increment of `dlinks`. `err.Error()` on a `nil` error panics. -/
def workerJob (env : Env) (job : Job) (w : World) : Except Panic World :=
  let (newUrl, err) := urlGenerator env job.Url
  if newUrl.data.length = 0 then
    match err with
    | none => .error .nilDereference
    | some msg =>
      .ok (w.send { err := some ("error generating url:" ++ msg), url := job.Url })
  else
    .ok { w with dlinks := atomicAddUint64 w.dlinks 1 }

/-- `worker` of `main.go` on the jobs it receives from the channel, in order. -/
def worker (env : Env) : List Job → World → Except Panic World
  | [], w => .ok w
  | job :: rest, w =>
    match workerJob env job w with
    | .error p => .error p
    | .ok w1 => worker env rest w1

/-! ## Notions of the specification and example data -/

/-- The host of a URL in the sense of the specification: the text between `://`
and the next `/`. It is not a function of `main.go`, which only searches
substrings; it serves to state claims that speak of hosts. -/
def urlHost (url : String) : String :=
  let rest := match stringsIndex url "://" with
    | some i => url.data.drop (i + 3)
    | none => url.data
  ⟨rest.takeWhile (fun c => c != '/')⟩

/-- An environment in which every fetch fails. -/
def envOffline : Env :=
  { soupGet := fun _ => .error "no network"
    findOgVideo := fun _ => none
    clientGet := fun _ => .error "no network" }

/-- A world with zeroed counters, no failure record, and an empty file system in
which every path can be created. -/
def world0 : World :=
  { dlinks := 0, exist := 0, errChan := [], fs := fun _ => .missing true, bodyReads := [] }

/-- A landing page service stub: the page of every URL is `page`, whose `og:video`
meta tag has the content `https://thumbs.gfycat.com/Abc-mobile.mp4`. -/
def envGfycat : Env :=
  { soupGet := fun _ => .ok "page"
    findOgVideo := fun _ =>
      some [("property", "og:video"), ("content", "https://thumbs.gfycat.com/Abc-mobile.mp4")]
    clientGet := fun _ => .error "no network" }

/-- The job of the end-to-end scenario. -/
def jobForest : Job :=
  { Index := 0, Url := "https://i.redd.it/abc.jpg",
    FilePath := "/tmp/out/forest/abc123", FolderPath := "/tmp/out/forest" }

/-- A server that answers every download with status `status`, content type
`image/jpg` and the body `data`; landing pages are not served. -/
def envStatus (status : Int) : Env :=
  { soupGet := fun _ => .error "no network"
    findOgVideo := fun _ => none
    clientGet := fun _ =>
      .ok { StatusCode := status, contentType := ["image/jpg"], body := "data", bodyErr := none } }

/-- A job whose source URL is on no recognised host. -/
def jobUnsupported : Job :=
  { Index := 0, Url := "https://example.com/pic.jpg",
    FilePath := "/tmp/out/forest/pic", FolderPath := "/tmp/out/forest" }

/-- A gfycat job; with `envGfycatNoMeta` its landing page has no `og:video` tag. -/
def jobGfycat : Job :=
  { Index := 1, Url := "https://gfycat.com/abc",
    FilePath := "/tmp/out/forest/abc", FolderPath := "/tmp/out/forest" }

/-- Landing pages are served, but carry no `og:video` meta tag. -/
def envGfycatNoMeta : Env :=
  { soupGet := fun _ => .ok "page"
    findOgVideo := fun _ => none
    clientGet := fun _ => .error "no network" }

/-- A world in which `/tmp/out/forest/abc123.jpg` already holds `old`. -/
def worldWithFile : World :=
  { world0 with
    fs := world0.fs.set "/tmp/out/forest/abc123.jpg" (.file "old") }

/-! ## Facts about the `strings` functions -/

/-- A string that contains `a ++ b` contains `a`. -/
theorem indexChars_isSome_of_append (a b : List Char) (s : List Char)
    (h : (indexChars (a ++ b) s).isSome = true) : (indexChars a s).isSome = true := by
  induction s with
  | nil =>
    simp only [indexChars] at h ⊢
    split at h
    · rename_i hp
      have : a.isPrefixOf [] = true := by
        rw [List.isPrefixOf_iff_prefix] at hp ⊢
        exact (List.prefix_append a b).trans hp
      simp [this]
    · simp at h
  | cons c cs ih =>
    simp only [indexChars] at h ⊢
    split at h
    · rename_i hp
      have : a.isPrefixOf (c :: cs) = true := by
        rw [List.isPrefixOf_iff_prefix] at hp ⊢
        exact (List.prefix_append a b).trans hp
      simp [this]
    · split
      · simp
      · simp only [Option.isSome_map'] at h ⊢
        exact ih h

/-- A one-character pattern is not found exactly when the character does not occur. -/
theorem indexChars_single_none (c : Char) (s : List Char) :
    indexChars [c] s = none ↔ c ∉ s := by
  induction s with
  | nil => simp [indexChars, List.isPrefixOf]
  | cons d ds ih =>
    simp only [indexChars, List.isPrefixOf, List.mem_cons, not_or]
    by_cases h : c = d
    · subst h; simp
    · have : (c == d) = false := by simpa using h
      simp [this, ih, h]

/-- The position found for a one-character pattern: the character is not before
it and stands at it. -/
theorem indexChars_single_some (c : Char) (s : List Char) (m : Nat)
    (h : indexChars [c] s = some m) :
    c ∉ s.take m ∧ s.drop m = c :: s.drop (m + 1) := by
  induction s generalizing m with
  | nil => simp [indexChars, List.isPrefixOf] at h
  | cons d ds ih =>
    simp only [indexChars, List.isPrefixOf] at h
    by_cases hcd : c = d
    · subst hcd
      simp at h
      subst h
      simp
    · have hb : (c == d) = false := by simpa using hcd
      simp only [hb, Bool.false_and, Bool.false_eq_true, if_false, Option.map_eq_some'] at h
      obtain ⟨k, hk, rfl⟩ := h
      obtain ⟨h1, h2⟩ := ih k hk
      refine ⟨?_, ?_⟩
      · simp only [List.take_succ_cons, List.mem_cons, not_or]
        exact ⟨hcd, h1⟩
      · simpa using h2


/-- A string without the separator is its own single piece. -/
theorem splitChars_of_index_none (sep : List Char) (fuel : Nat) (s : List Char)
    (h : indexChars sep s = none) : splitChars sep fuel s = [s] := by
  cases fuel with
  | zero => rfl
  | succ n => simp [splitChars, h]

/-- Splitting yields at least one piece. -/
theorem splitChars_ne_nil (sep : List Char) (fuel : Nat) (s : List Char) :
    splitChars sep fuel s ≠ [] := by
  cases fuel with
  | zero => simp [splitChars]
  | succ n =>
    simp only [splitChars]
    split <;> simp

/-- The fuel `stringsSplit` passes is enough: for a non-empty separator every
amount of fuel from the length of the string on gives the same pieces. -/
theorem splitChars_fuel (sep : List Char) (hsep : sep ≠ []) (fuel fuel2 : Nat)
    (s : List Char) (h1 : s.length ≤ fuel) (h2 : s.length ≤ fuel2) :
    splitChars sep fuel s = splitChars sep fuel2 s := by
  have hlen : 1 ≤ sep.length := List.length_pos.mpr hsep
  have hnil : indexChars sep [] = none := by
    cases sep with
    | nil => exact absurd rfl hsep
    | cons a as => simp [indexChars, List.isPrefixOf]
  induction fuel generalizing fuel2 s with
  | zero =>
    have : s = [] := List.length_eq_zero.mp (Nat.le_zero.mp h1)
    subst this
    rw [splitChars_of_index_none _ _ _ hnil, splitChars_of_index_none _ _ _ hnil]
  | succ n ih =>
    cases fuel2 with
    | zero =>
      have : s = [] := List.length_eq_zero.mp (Nat.le_zero.mp h2)
      subst this
      rw [splitChars_of_index_none _ _ _ hnil, splitChars_of_index_none _ _ _ hnil]
    | succ k =>
      cases hi : indexChars sep s with
      | none => simp [splitChars, hi]
      | some m =>
        simp only [splitChars, hi]
        congr 1
        apply ih
        · simp only [List.length_drop]; omega
        · simp only [List.length_drop]; omega

/-- With enough fuel the last piece cut by a one-character separator is free of it. -/
theorem splitChars_getLast_free (c : Char) (fuel : Nat) (s : List Char)
    (hf : s.length ≤ fuel) :
    ∃ e, (splitChars [c] fuel s).getLast? = some e ∧ c ∉ e := by
  induction fuel generalizing s with
  | zero =>
    have : s = [] := List.length_eq_zero.mp (Nat.le_zero.mp hf)
    subst this
    exact ⟨[], by simp [splitChars], by simp⟩
  | succ n ih =>
    cases hi : indexChars [c] s with
    | none =>
      refine ⟨s, by simp [splitChars, hi], (indexChars_single_none c s).mp hi⟩
    | some m =>
      have hlen : (s.drop (m + 1)).length ≤ n := by
        simp only [List.length_drop]; omega
      obtain ⟨e, he, hce⟩ := ih (s.drop (m + 1)) hlen
      refine ⟨e, ?_, hce⟩
      simp only [splitChars, hi, List.length_singleton]
      rw [List.getLast?_cons, he]
      rfl

/-- With enough fuel the last piece of `t ++ c :: s` is `s` when `s` is free of `c`. -/
theorem splitChars_getLast_append (c : Char) (s : List Char) (hs : c ∉ s)
    (fuel : Nat) (t : List Char) (hf : (t ++ c :: s).length ≤ fuel) :
    (splitChars [c] fuel (t ++ c :: s)).getLast? = some s := by
  induction fuel generalizing t with
  | zero => simp at hf
  | succ n ih =>
    cases hi : indexChars [c] (t ++ c :: s) with
    | none =>
      have := (indexChars_single_none c _).mp hi
      simp at this
    | some m =>
      obtain ⟨h1, h2⟩ := indexChars_single_some c _ m hi
      simp only [splitChars, hi, List.length_singleton]
      rw [List.getLast?_cons]
      by_cases hm : m < t.length
      · -- the separator found lies inside `t`
        have hd : (t ++ c :: s).drop (m + 1) = t.drop (m + 1) ++ c :: s := by
          rw [List.drop_append_of_le_length (by omega)]
        rw [hd, ih]
        · rfl
        have := hf
        simp only [List.length_append, List.length_cons, List.length_drop] at this ⊢
        omega
      · -- no separator inside `t`: the one found is the one written
        have hm2 : m = t.length := by
          by_contra hne
          have hlt : t.length < m := by omega
          apply h1
          rw [List.mem_take_iff_getElem]
          refine ⟨t.length, ?_, ?_⟩
          · simp only [List.length_append, List.length_cons]; omega
          · rw [List.getElem_append_right (Nat.le_refl _)]
            simp
        subst hm2
        have hd : (t ++ c :: s).drop (t.length + 1) = s := by
          rw [List.drop_append_eq_append_drop]
          simp
        rw [hd, splitChars_of_index_none _ _ _ ((indexChars_single_none c s).mpr hs)]
        rfl

/-! ## C10 -/

/-- Claim C10: `getExtention` returns the final `/`-separated segment of its argument:
`getExtention (t ++ "/" ++ s) = s` whenever `s` contains no `/`; for every input,
the empty string included, the index `len(splits)-1` is in range (the result is
`some`), and the result contains no `/`. -/
theorem getExtention_final_segment :
    (∀ t s : String, stringsContains s "/" = false →
      getExtention (t ++ "/" ++ s) = some s) ∧
    (∀ url : String, ∃ ext, getExtention url = some ext ∧
      stringsContains ext "/" = false) := by
  constructor
  · intro t s hs
    have hs1 : '/' ∉ s.data := by
      rw [← indexChars_single_none]
      simpa [stringsContains, stringsIndex] using hs
    have hd : (t ++ "/" ++ s).data = t.data ++ '/' :: s.data := by
      simp [String.data_append]
    have h := splitChars_getLast_append '/' s.data hs1 (t ++ "/" ++ s).data.length
      t.data (by rw [hd])
    rw [← hd] at h
    simp only [getExtention, stringsSplit, ← List.getLast?_eq_getElem?, List.getLast?_map]
    change Option.map String.mk (splitChars ['/'] _ _).getLast? = _
    rw [h]
    rfl
  · intro url
    obtain ⟨e, he, hce⟩ := splitChars_getLast_free '/' url.data.length url.data (Nat.le_refl _)
    refine ⟨⟨e⟩, ?_, ?_⟩
    · simp only [getExtention, stringsSplit, ← List.getLast?_eq_getElem?, List.getLast?_map]
      change Option.map String.mk (splitChars ['/'] _ _).getLast? = _
      rw [he]
      rfl
    · have := (indexChars_single_none '/' e).mpr hce
      simp only [stringsContains, stringsIndex]
      change (indexChars ['/'] e).isSome = false
      rw [this]
      rfl

/-- Witness of claim C10: the content type `video/mp4` gives `mp4`. -/
theorem getExtention_final_segment_witness :
    stringsContains "mp4" "/" = false ∧ getExtention ("video" ++ "/" ++ "mp4") = some "mp4" :=
  ⟨by decide, getExtention_final_segment.1 "video" "mp4" (by decide)⟩

/-! ## C2, C3, C6, C7: the resolver -/

/-- Claim C2 as stated fails: the URL `https://i.redd.it/gfycat.png` has the host
`i.redd.it`, yet `urlGenerator` treats it as a gfycat landing page because it
contains `gfycat`; with the network down the result is the empty URL and the
fetch error, not the URL itself with a nil error. -/
theorem urlGenerator_direct_host_counterexample :
    urlHost "https://i.redd.it/gfycat.png" = "i.redd.it" ∧
    urlGenerator envOffline "https://i.redd.it/gfycat.png" = ("", some "no network") ∧
    urlGenerator envOffline "https://i.redd.it/gfycat.png"
      ≠ ("https://i.redd.it/gfycat.png", none) := by
  decide

/-- Claim C2, amended: every URL that contains `i.redd.it` and contains neither `gfycat`
nor `gifv` is returned unchanged, with a nil error. -/
theorem urlGenerator_direct_unchanged (env : Env) (urlInput : String)
    (hhost : stringsContains urlInput "i.redd.it" = true)
    (hgfy : stringsContains urlInput "gfycat" = false)
    (hgifv : stringsContains urlInput "gifv" = false) :
    urlGenerator env urlInput = (urlInput, none) := by
  simp [urlGenerator, hhost, hgfy, hgifv]

/-- Witness of claim C2, amended: `https://i.redd.it/abc.jpg`. -/
theorem urlGenerator_direct_unchanged_witness :
    stringsContains "https://i.redd.it/abc.jpg" "i.redd.it" = true ∧
    stringsContains "https://i.redd.it/abc.jpg" "gfycat" = false ∧
    stringsContains "https://i.redd.it/abc.jpg" "gifv" = false ∧
    urlGenerator envOffline "https://i.redd.it/abc.jpg" = ("https://i.redd.it/abc.jpg", none) :=
  ⟨by decide, by decide, by decide,
    urlGenerator_direct_unchanged envOffline "https://i.redd.it/abc.jpg"
      (by decide) (by decide) (by decide)⟩

/-- On `https://example.com/pic.jpg`, which contains none of the recognised
patterns, the resolver returns the empty URL and the nil error. -/
theorem urlGenerator_example_com (env : Env) :
    urlGenerator env "https://example.com/pic.jpg" = ("", none) := by
  have h1 : stringsContains "https://example.com/pic.jpg" "i.redd.it" = false := by decide
  have h2 : stringsContains "https://example.com/pic.jpg" "gfycat.com" = false := by decide
  have h3 : stringsContains "https://example.com/pic.jpg" "imgur" = false := by decide
  simp [urlGenerator, h1, h2, h3]

/-- Claim C3, the code at the failing input: `https://example.com/pic.jpg` contains none
of the recognised patterns, and `urlGenerator` returns the empty URL together with
the nil error, whatever the environment. -/
theorem urlGenerator_unsupported_nil_error (env : Env) :
    stringsContains "https://example.com/pic.jpg" "i.redd.it" = false ∧
    stringsContains "https://example.com/pic.jpg" "gfycat.com" = false ∧
    stringsContains "https://example.com/pic.jpg" "imgur" = false ∧
    urlGenerator env "https://example.com/pic.jpg" = ("", none) := by
  exact ⟨by decide, by decide, by decide, urlGenerator_example_com env⟩

/-- Claim C6: for a URL containing `gfycat.com` whose fetched page carries an `og:video`
meta tag with `content` attribute `c`, `urlGenerator` returns, with a nil error,
`c` with the first `thumbs` replaced by `giant` and then the first `-mobile`
deleted. -/
theorem urlGenerator_gfycat (env : Env) (urlInput page c : String) (attrs : Attrs)
    (hhost : stringsContains urlInput "gfycat.com" = true)
    (hget : env.soupGet urlInput = .ok page)
    (hfind : env.findOgVideo page = some attrs)
    (hcontent : attrs.lookup "content" = some c) :
    urlGenerator env urlInput =
      (stringsReplace (stringsReplace c "thumbs" "giant" 1) "-mobile" "" 1, none) := by
  have hg : stringsContains urlInput "gfycat" = true := by
    exact indexChars_isSome_of_append "gfycat".data ".com".data urlInput.data hhost
  simp [urlGenerator, hhost, hg, gfyCatMP4Url, hget, hfind, hcontent]

/-- Witness of claim C6: the stubbed landing page resolves to the `giant` link without
the `-mobile` suffix. -/
theorem urlGenerator_gfycat_witness :
    stringsContains "https://gfycat.com/abc" "gfycat.com" = true ∧
    envGfycat.soupGet "https://gfycat.com/abc" = .ok "page" ∧
    urlGenerator envGfycat "https://gfycat.com/abc"
      = ("https://giant.gfycat.com/Abc.mp4", none) :=
  ⟨by decide, rfl,
    urlGenerator_gfycat envGfycat "https://gfycat.com/abc" "page"
      "https://thumbs.gfycat.com/Abc-mobile.mp4"
      [("property", "og:video"), ("content", "https://thumbs.gfycat.com/Abc-mobile.mp4")]
      (by decide) rfl rfl (by decide)⟩

/-- Claim C7, the code at the failing input: for `https://i.imgur.com/abc.gifv` the
`gifv` branch rewrites the still empty `urlOut`, so `urlGenerator` returns the
empty URL with a nil error instead of `https://i.imgur.com/abc.mp4`. -/
theorem urlGenerator_gifv_empty (env : Env) :
    stringsContains "https://i.imgur.com/abc.gifv" "imgur" = true ∧
    stringsContains "https://i.imgur.com/abc.gifv" "gfycat" = false ∧
    urlGenerator env "https://i.imgur.com/abc.gifv" = ("", none) ∧
    stringsReplace "https://i.imgur.com/abc.gifv" "gifv" "mp4" 1
      = "https://i.imgur.com/abc.mp4" := by
  have h1 : stringsContains "https://i.imgur.com/abc.gifv" "imgur" = true := by decide
  have h2 : stringsContains "https://i.imgur.com/abc.gifv" "gfycat" = false := by decide
  have h3 : stringsContains "https://i.imgur.com/abc.gifv" "gifv" = true := by decide
  have h4 : stringsReplace "" "gifv" "mp4" 1 = "" := by decide
  refine ⟨h1, h2, ?_, by decide⟩
  simp [urlGenerator, h1, h2, h3, h4]

/-! ## C1, C4: the worker -/

/-- One iteration of the worker leaves the file system, the response bodies and
the existing-file counter alone. -/
theorem workerJob_preserves_files (env : Env) (job : Job) (w w1 : World)
    (h : workerJob env job w = .ok w1) :
    w1.fs = w.fs ∧ w1.exist = w.exist ∧ w1.bodyReads = w.bodyReads := by
  unfold workerJob at h
  split at h
  split at h
  · split at h
    · cases h
    · cases h
      exact ⟨rfl, rfl, rfl⟩
  · cases h
    exact ⟨rfl, rfl, rfl⟩

/-- The worker never creates, changes or removes a file, never reads a response
body and never counts an existing file, whatever jobs it receives. -/
theorem worker_preserves_files (env : Env) (jobs : List Job) (w w1 : World)
    (h : worker env jobs w = .ok w1) :
    w1.fs = w.fs ∧ w1.exist = w.exist ∧ w1.bodyReads = w.bodyReads := by
  induction jobs generalizing w with
  | nil =>
    simp only [worker] at h
    cases h
    exact ⟨rfl, rfl, rfl⟩
  | cons job rest ih =>
    simp only [worker] at h
    cases hj : workerJob env job w with
    | error p => rw [hj] at h; cases h
    | ok w2 =>
      rw [hj] at h
      obtain ⟨a1, a2, a3⟩ := workerJob_preserves_files env job w w2 hj
      obtain ⟨b1, b2, b3⟩ := ih w2 h
      exact ⟨b1.trans a1, b2.trans a2, b3.trans a3⟩

/-- Claim C1, the code at the failing input: the worker resolves the job of the scenario
and counts it (`dlinks = 1`, `exist = 0`), but it never calls `putFile`, so no file
appears at `/tmp/out/forest/abc123.jpg`, although `putFile`, called on the same job
and world, would create that file. -/
theorem worker_never_downloads :
    (∃ w1, worker (envStatus 200) [jobForest] world0 = .ok w1 ∧
      w1.dlinks = 1 ∧ w1.exist = 0 ∧
      w1.fs "/tmp/out/forest/abc123.jpg" = .missing true) ∧
    (∃ w2, putFile (envStatus 200) jobForest.FilePath "https://i.redd.it/abc.jpg" world0 = .ok w2 ∧
      w2.fs "/tmp/out/forest/abc123.jpg" = .file "data") := by
  refine ⟨⟨_, rfl, rfl, rfl, rfl⟩, ⟨_, rfl, rfl⟩⟩

/-- Claim C4, the code at the failing inputs: a job on an unsupported host, and a gfycat
job whose landing page lacks the `og:video` tag, both make the worker panic on
`err.Error()` of a nil error: no failure record is sent and the jobs behind it
are not processed. Only a failed landing-page fetch, whose error is not nil, is
handled as the claim says: one record with the source URL, then the next job. -/
theorem worker_panics_on_failed_resolution (env : Env) (rest : List Job) (w : World) :
    worker env (jobUnsupported :: rest) w = .error .nilDereference ∧
    worker envGfycatNoMeta (jobGfycat :: rest) w = .error .nilDereference ∧
    (∃ w1, worker envOffline [jobGfycat, jobForest] world0 = .ok w1 ∧
      w1.errChan.map (fun e => e.url) = ["https://gfycat.com/abc"] ∧ w1.dlinks = 1) := by
  have h1 : urlGenerator env jobUnsupported.Url = ("", none) :=
    urlGenerator_example_com env
  have h2 : urlGenerator envGfycatNoMeta jobGfycat.Url = ("", none) := by decide
  refine ⟨?_, ?_, ⟨_, rfl, rfl, rfl⟩⟩
  · simp [worker, workerJob, h1]
  · simp [worker, workerJob, h2]

/-! ## C8, C9: the downloader -/

/-- Claim C8: when the response has a 2xx status and a file already exists at
`fileName + "." + ext`, `ext` being the extension of the content type, `putFile`
returns with the existing-file counter one higher, no part of the body read, no
failure record sent and the file system unchanged. (`exist` is a `uint64`; the
counter is below its maximum.) -/
theorem putFile_existing_file (env : Env) (fileName url : String) (w : World)
    (resp : Response) (ct : String) (more : List String) (ext data : String)
    (hget : env.clientGet url = .ok resp)
    (hstatus : 200 ≤ resp.StatusCode ∧ resp.StatusCode ≤ 299)
    (hct : resp.contentType = ct :: more)
    (hext : getExtention ct = some ext)
    (hfile : w.fs (fileName ++ "." ++ ext) = .file data)
    (hmax : w.exist + 1 < 2 ^ 64) :
    ∃ w1, putFile env fileName url w = .ok w1 ∧
      w1.exist = w.exist + 1 ∧
      w1.bodyReads = w.bodyReads ∧
      w1.errChan = w.errChan ∧
      w1.fs = w.fs ∧
      w1.fs (fileName ++ "." ++ ext) = .file data ∧
      w1.dlinks = w.dlinks := by
  have hs : ¬ resp.StatusCode > 299 := by omega
  have he : ensureFile w.fs (fileName ++ "." ++ ext) = true := by
    simp [ensureFile, hfile]
  refine ⟨{ w with exist := atomicAddUint64 w.exist 1 }, ?_, ?_, rfl, rfl, rfl, hfile, rfl⟩
  · simp only [putFile, hget, hct, hext, he, if_true]
    rw [if_neg hs]
  · exact Nat.mod_eq_of_lt hmax

/-- Witness of claim C8: a second download of the scenario's job only counts. -/
theorem putFile_existing_file_witness :
    ∃ w1, putFile (envStatus 200) "/tmp/out/forest/abc123" "https://i.redd.it/abc.jpg"
        worldWithFile = .ok w1 ∧
      w1.exist = worldWithFile.exist + 1 ∧
      w1.bodyReads = worldWithFile.bodyReads ∧
      w1.errChan = worldWithFile.errChan ∧
      w1.fs = worldWithFile.fs ∧
      w1.fs ("/tmp/out/forest/abc123" ++ "." ++ "jpg") = .file "old" ∧
      w1.dlinks = worldWithFile.dlinks :=
  putFile_existing_file (envStatus 200) "/tmp/out/forest/abc123" "https://i.redd.it/abc.jpg"
    worldWithFile
    { StatusCode := 200, contentType := ["image/jpg"], body := "data", bodyErr := none }
    "image/jpg" [] "jpg" "old" rfl (by decide) rfl (by decide) (by decide) (by decide)

/-- Claim C9 as stated fails: the status 101 is outside 200–299, yet `putFile` treats
the response as a success: it sends no failure record and writes the body to
`/tmp/out/forest/abc123.jpg`, which did not exist before. -/
theorem putFile_status_101_counterexample :
    ¬ (200 ≤ (101 : Int) ∧ (101 : Int) ≤ 299) ∧
    world0.fs "/tmp/out/forest/abc123.jpg" = .missing true ∧
    ∃ w1, putFile (envStatus 101) "/tmp/out/forest/abc123" "https://i.redd.it/abc.jpg"
        world0 = .ok w1 ∧
      w1.errChan.length = 0 ∧
      w1.fs "/tmp/out/forest/abc123.jpg" = .file "data" := by
  refine ⟨by decide, rfl, _, rfl, rfl, rfl⟩

/-- Claim C9, amended: for every response whose status code is above 299, `putFile`
sends exactly one failure record, which names the status code and the URL, and
returns without touching the file system, the response body or the counters. -/
theorem putFile_status_above_299 (env : Env) (fileName url : String) (w : World)
    (resp : Response)
    (hget : env.clientGet url = .ok resp)
    (hstatus : resp.StatusCode > 299) :
    ∃ w1, putFile env fileName url w = .ok w1 ∧
      w1.errChan = w.errChan ++
        [{ err := some ("url " ++ url ++ " returned status code " ++ toString resp.StatusCode),
           url := url }] ∧
      w1.fs = w.fs ∧
      w1.exist = w.exist ∧
      w1.dlinks = w.dlinks ∧
      w1.bodyReads = w.bodyReads := by
  refine ⟨w.send
      { err := some ("url " ++ url ++ " returned status code " ++ toString resp.StatusCode),
        url := url }, ?_, rfl, rfl, rfl, rfl, rfl⟩
  simp only [putFile, hget]
  rw [if_pos hstatus]

/-- Witness of claim C9, amended: the status 404. -/
theorem putFile_status_above_299_witness :
    ∃ w1, putFile (envStatus 404) "/tmp/out/forest/abc123" "https://i.redd.it/abc.jpg"
        world0 = .ok w1 ∧
      w1.errChan = world0.errChan ++
        [{ err := some ("url " ++ "https://i.redd.it/abc.jpg" ++ " returned status code "
                    ++ toString (404 : Int)),
           url := "https://i.redd.it/abc.jpg" }] ∧
      w1.fs = world0.fs ∧
      w1.exist = world0.exist ∧
      w1.dlinks = world0.dlinks ∧
      w1.bodyReads = world0.bodyReads :=
  putFile_status_above_299 (envStatus 404) "/tmp/out/forest/abc123" "https://i.redd.it/abc.jpg"
    world0
    { StatusCode := 404, contentType := ["image/jpg"], body := "data", bodyErr := none }
    rfl (by decide)

end RedditScrap
